import Mathlib

/-!
Verification model of lan-mouse's core state machines.

This file embeds, in Lean, the capture controller (`src/capture.rs`) and the
emulation controller (`src/server/emulation_task.rs`) of lan-mouse:
the per-datagram inbound procedure `handle_udp_rx`, the key bookkeeping
`update_client_keys`, the teardown path of `do_emulation` with
`release_all_keys`/`release_keys`, the address filter
`activate_client_if_exists`, and the outbound state machine
`handle_capture_event`/`release_capture` together with the `Ack`/`Leave`
handling of `do_capture`'s select loop.

Effects on the backends and channels (consume, conn.send, capture_tx,
sender_tx, log warnings, ping-timer restarts) are modelled as append-only
logs / counters carried in the state.  Fallible backend calls are modelled
by boolean oracles (`consume_ok`, `send_ok`) passed as parameters.
-/

namespace LanMouse

/-- Screen edge positions (`lan_mouse_ipc::Position`). -/
inductive Position
  | Left
  | Right
  | Top
  | Bottom
deriving DecidableEq, Repr

/-- Wire positions (`lan_mouse_proto::Position`). -/
inductive ProtoPosition
  | Left
  | Right
  | Top
  | Bottom
deriving DecidableEq, Repr

/-- Capture backend positions (`input_capture::Position`). -/
inductive CapturePosition
  | Left
  | Right
  | Top
  | Bottom
deriving DecidableEq, Repr

/-- Source `to_capture_pos` in `src/capture.rs`: ipc position to capture position. -/
def to_capture_pos (pos : Position) : CapturePosition :=
  match pos with
  | .Left => .Left
  | .Right => .Right
  | .Top => .Top
  | .Bottom => .Bottom

/-- The evident correspondence between configured (ipc) positions and wire
positions, used only to state what `Enter(position)` would have to carry. -/
def to_proto_pos (pos : Position) : ProtoPosition :=
  match pos with
  | .Left => .Left
  | .Right => .Right
  | .Top => .Top
  | .Bottom => .Bottom

/-- Keyboard events of `input_event::KeyboardEvent`: `Key{time,key,state}` and
`Modifiers{..}`.  `state = 0` is a release, anything else a press. -/
inductive KeyboardEvent
  | Key (time : Nat) (key : Nat) (state : Nat)
  | Modifiers (mods_depressed : Nat) (mods_latched : Nat) (mods_locked : Nat) (group : Nat)
deriving DecidableEq, Repr

/-- Inbound device/protocol events (`input_event::Event`).  `Pointer` carries an
opaque payload; the emulation code only distinguishes the variants below. -/
inductive Event
  | Pointer (e : Nat)
  | Keyboard (e : KeyboardEvent)
  | Enter
  | Leave
  | Ping
  | Pong
  | Disconnect
deriving DecidableEq, Repr

/-- Outbound wire events (`lan_mouse_proto::ProtoEvent`).  The capture code
sends `Enter`/`Input` and matches inbound `Ack(_)`/`Leave(_)`. -/
inductive ProtoEvent
  | Enter (pos : ProtoPosition)
  | Leave (n : Nat)
  | Ack (n : Nat)
  | Input (e : Event)
  | Ping
  | Pong
  | Disconnect
deriving DecidableEq, Repr

/-- Modelled from the spec: `ClientConfig` — hostname, candidate socket
addresses, assigned `Position`, optional hook command (its definition lives in
`client.rs`, outside the provided sources).  Addresses are opaque naturals. -/
structure ClientConfig where
  hostname : String
  addrs : List Nat
  pos : Position
  cmd : Option String
deriving DecidableEq, Repr

/-- Modelled from the spec: `ClientRuntimeState` — `active_addr`, `alive` TTL
flag and `pressed_keys`.  `pressed_keys` (a `HashSet<u32>` in the source) is
modelled as a duplicate-free list; iteration order is unspecified there and
nothing below depends on it. -/
structure ClientState where
  active_addr : Option Nat
  alive : Bool
  pressed_keys : List Nat
deriving DecidableEq, Repr

/-- Modelled from the spec: the client registry, a mapping
`handle → (ClientConfig, ClientRuntimeState)` plus an address index. -/
structure ClientManager where
  clients : List (Nat × ClientConfig × ClientState)
deriving DecidableEq, Repr

/-- Modelled from the spec: `get_client(addr) → Option<handle>` — the
address-to-handle lookup, from the sticky `active_addr` or the configured
candidate addresses. -/
def ClientManager.get_client (m : ClientManager) (addr : Nat) : Option Nat :=
  (m.clients.find? fun c =>
    c.2.2.active_addr == some addr || c.2.1.addrs.contains addr).map (·.1)

/-- Modelled from the spec: `get_mut(handle)` — borrow config and state. -/
def ClientManager.find (m : ClientManager) (handle : Nat) :
    Option (ClientConfig × ClientState) :=
  (m.clients.find? fun c => c.1 == handle).map (·.2)

/-- Point update of a client's runtime state (the effect of mutating through
`get_mut`). -/
def ClientManager.update (m : ClientManager) (handle : Nat)
    (f : ClientState → ClientState) : ClientManager :=
  ⟨m.clients.map fun c => if c.1 = handle then (c.1, c.2.1, f c.2.2) else c⟩

namespace Server

/-- Global mode, `crate::server::State`. -/
inductive State
  | Sending
  | Receiving
  | AwaitingLeave
deriving DecidableEq, Repr

end Server

/-- Modelled from the spec: the server's `CaptureEvent` channel message type
(defined outside the provided sources); only `Release` is ever sent by the
emulation task. -/
inductive ServerCaptureEvent
  | Release
deriving DecidableEq, Repr

/-- Control requests to the emulation task (`EmulationEvent`). -/
inductive EmulationEvent
  | Create (h : Nat)
  | Destroy (h : Nat)
  | ReleaseKeys (c : Nat)
deriving DecidableEq, Repr

/-- The state touched by the emulation task: the server's global mode and
client registry, the task-local `last_ignored` slot, and append-only logs of
the task's effects: backend `consume` calls, events pushed to `sender_tx`,
events pushed to `capture_tx`, `restart_ping_timer` calls, "ignoring events
from" warnings, and whether the backend has been terminated. -/
structure EmuState where
  state : Server.State
  client_manager : ClientManager
  last_ignored : Option Nat
  consumed : List (Event × Nat)
  sent : List (Event × Nat)
  capture_sent : List ServerCaptureEvent
  ping_restarts : Nat
  warn_ignored : Nat
  terminated : Bool
deriving DecidableEq, Repr

/-- Source `activate_client_if_exists`: address-to-handle lookup with the
`last_ignored` warn filter; on success resets the slot, marks the client
alive and records `addr` as its `active_addr`.  Returns
`(handle?, registry', last_ignored', warned)`. -/
def activate_client_if_exists (client_manager : ClientManager) (addr : Nat)
    (last_ignored : Option Nat) : Option Nat × ClientManager × Option Nat × Bool :=
  match client_manager.get_client addr with
  | none =>
    -- log ignored if it is the first event from the client in a series
    if last_ignored.isNone || (last_ignored.isSome && last_ignored != some addr) then
      (none, client_manager, some addr, true)
    else
      (none, client_manager, last_ignored, false)
  | some handle =>
    -- next event can be logged as ignored again
    match client_manager.find handle with
    | none => (none, client_manager, none, false)
    | some _ =>
      (some handle,
       client_manager.update handle
         (fun s => { s with alive := true, active_addr := some addr }),
       none, false)

/-- Source `update_client_keys`: double press/release filtering.  Returns
`(ignore_event, restart_timer, registry')`. -/
def update_client_keys (client_manager : ClientManager) (handle : Nat)
    (key : Nat) (state : Nat) : Bool × Bool × ClientManager :=
  match client_manager.find handle with
  | none => (true, false, client_manager)
  | some (_, client_state) =>
    let pressed := client_state.pressed_keys
    -- ignore double press / release events
    let ignore_event :=
      if state = 0 then
        -- ignore release event if key not pressed
        !pressed.contains key
      else
        -- ignore press event if key not released
        pressed.contains key
    let pressed' :=
      if state = 0 then pressed.filter (fun k => k != key)
      else if pressed.contains key then pressed else pressed ++ [key]
    let restart_timer := !pressed'.isEmpty
    (ignore_event, restart_timer,
     client_manager.update handle (fun s => { s with pressed_keys := pressed' }))

/-- A call to the emulation backend's `consume(event, handle)`: the call is
recorded and the oracle decides whether it reports an `EmulationError`. -/
def consume (consume_ok : Event → Nat → Bool) (s : EmuState) (event : Event)
    (handle : Nat) : EmuState × Bool :=
  ({ s with consumed := s.consumed ++ [(event, handle)] }, consume_ok event handle)

/-- The loop of `release_keys`: for each drained key synthesize
`Key{state=0}` (with `?` propagation) and finally a `Modifiers{0,0,0,0}`. -/
def release_drained (consume_ok : Event → Nat → Bool) (s : EmuState)
    (client : Nat) : List Nat → EmuState × Bool
  | [] => consume consume_ok s (.Keyboard (.Modifiers 0 0 0 0)) client
  | k :: rest =>
    let r := consume consume_ok s (.Keyboard (.Key 0 k 0)) client
    if r.2 then release_drained consume_ok r.1 client rest else (r.1, false)

/-- Source `release_keys`: drain `pressed_keys[client]`, then synthesize the
releases and the modifier clear through the backend. -/
def release_keys (consume_ok : Event → Nat → Bool) (s : EmuState)
    (client : Nat) : EmuState × Bool :=
  let keys := ((s.client_manager.find client).map (·.2.pressed_keys)).getD []
  let s' := { s with
    client_manager :=
      s.client_manager.update client (fun st => { st with pressed_keys := [] }) }
  release_drained consume_ok s' client keys

/-- Source `handle_udp_rx`: the per-inbound-datagram procedure.  The returned
boolean is `false` exactly when an `EmulationError` is propagated with `?`. -/
def handle_udp_rx (consume_ok : Event → Nat → Bool) (s : EmuState)
    (event : Event) (addr : Nat) : EmuState × Bool :=
  match activate_client_if_exists s.client_manager addr s.last_ignored with
  | (none, cm, li, warned) =>
    ({ s with
       client_manager := cm, last_ignored := li,
       warn_ignored := s.warn_ignored + (if warned then 1 else 0) }, true)
  | (some handle, cm, li, warned) =>
    let s := { s with
      client_manager := cm, last_ignored := li,
      warn_ignored := s.warn_ignored + (if warned then 1 else 0) }
    match event with
    | .Pong => (s, true) -- ignore pong events
    | .Ping => ({ s with sent := s.sent ++ [(.Pong, addr)] }, true)
    | .Disconnect => release_keys consume_ok s handle
    | _ =>
      -- tell clients that we are ready to receive events
      let s := if event = .Enter then { s with sent := s.sent ++ [(.Leave, addr)] } else s
      match s.state with
      | .Sending =>
        if event = .Leave then
          -- ignore additional leave events sent for redundancy
          (s, true)
        else
          -- upon receiving any event, we go back to receiving mode
          ({ s with state := .Receiving,
                    capture_sent := s.capture_sent ++ [.Release] }, true)
      | .Receiving =>
        match event with
        | .Keyboard (.Key _ key kstate) =>
          let r := update_client_keys s.client_manager handle key kstate
          let s := { s with
            client_manager := r.2.2,
            ping_restarts := s.ping_restarts + (if r.2.1 then 1 else 0) }
          -- workaround buggy rdp backend
          if r.1 then (s, true) else consume consume_ok s event handle
        | _ => consume consume_ok s event handle
      | .AwaitingLeave =>
        -- ignore events still on the way until a leave event occurs
        let s := if event = .Leave then { s with state := .Sending } else s
        -- entering a client that waits for a leave is still possible
        let s := if event = .Enter then
            { s with state := .Receiving,
                     capture_sent := s.capture_sent ++ [.Release] }
          else s
        (s, true)

/-- One ready arm of `do_emulation_session`'s select: an inbound datagram, a
network error on `udp_rx` (logged and skipped), or a control request. -/
inductive SessionInput
  | udp (event : Event) (addr : Nat)
  | udpError
  | request (e : EmulationEvent)
deriving DecidableEq, Repr

/-- One iteration of `do_emulation_session`'s loop.  `Create`/`Destroy` only
call into the backend and do not touch the modelled state. -/
def session_step (consume_ok : Event → Nat → Bool) (s : EmuState) :
    SessionInput → EmuState × Bool
  | .udp event addr => handle_udp_rx consume_ok s event addr
  | .udpError => (s, true)
  | .request (.Create _) => (s, true)
  | .request (.Destroy _) => (s, true)
  | .request (.ReleaseKeys c) => release_keys consume_ok s c

/-- Source `do_emulation_session`: the select loop.  The end of the input list
is the cancellation arm (`break Ok(())`); an error from any step ends the
session with that error. -/
def do_emulation_session (consume_ok : Event → Nat → Bool) (s : EmuState) :
    List SessionInput → EmuState × Bool
  | [] => (s, true)
  | i :: rest =>
    let r := session_step consume_ok s i
    if r.2 then do_emulation_session consume_ok r.1 rest else (r.1, false)

/-- The iteration of `release_all_keys` over the collected handles. -/
def release_all_keys_loop (consume_ok : Event → Nat → Bool) (s : EmuState) :
    List Nat → EmuState × Bool
  | [] => (s, true)
  | c :: rest =>
    let r := release_keys consume_ok s c
    if r.2 then release_all_keys_loop consume_ok r.1 rest else (r.1, false)

/-- Source `release_all_keys`: run `release_keys` on every registered client. -/
def release_all_keys (consume_ok : Event → Nat → Bool) (s : EmuState) :
    EmuState × Bool :=
  release_all_keys_loop consume_ok s (s.client_manager.clients.map (·.1))

/-- Source `do_emulation`, from the start of the session loop: run the
session, terminate the backend, propagate a session error with `?`, and only
then (i.e. only on a clean exit) run `release_all_keys`. -/
def do_emulation (consume_ok : Event → Nat → Bool) (s : EmuState)
    (inputs : List SessionInput) : EmuState × Bool :=
  let res := do_emulation_session consume_ok s inputs
  let s' := { res.1 with terminated := true }
  if res.2 then release_all_keys consume_ok s' else (s', false)

namespace Capture

/-- Capture sub-state, the `State` enum of `src/capture.rs`. -/
inductive State
  | Idle
  | WaitingForAck
  | Sending
deriving DecidableEq, Repr

/-- Events from the capture backend (`input_capture::CaptureEvent`). -/
inductive CaptureEvent
  | Begin
  | Input (e : Event)
deriving DecidableEq, Repr

/-- Control requests to the capture task (`CaptureRequest`). -/
inductive CaptureRequest
  | Release
  | Create (h : Nat) (p : CapturePosition)
  | Destroy (h : Nat)
deriving DecidableEq, Repr

/-- Recorded calls into the capture backend. -/
inductive BackendCall
  | create (h : Nat) (p : CapturePosition)
  | destroy (h : Nat)
  | release
deriving DecidableEq, Repr

/-- The state touched by the capture task: the sub-state, the server's
capture-side registry view (`get_active`/`set_active`, `should_release`,
`get_pos`, hook commands), and append-only logs of its effects: `conn.send`
calls, capture backend calls, and spawned hook commands. -/
structure CaptureState where
  state : State
  active : Option Nat
  should_release : Bool
  pos_list : List (Nat × Position)
  has_cmd : List Nat
  send_log : List (ProtoEvent × Nat)
  backend : List BackendCall
  hooks : List Nat
deriving DecidableEq, Repr

/-- Modelled from the spec: `get_pos(handle)` of the Server Context (defined
outside the provided sources) — the client's configured screen edge. -/
def get_pos (s : CaptureState) (handle : Nat) : Option Position :=
  (s.pos_list.find? fun c => c.1 == handle).map (·.2)

/-- Source `spawn_hook_command`: spawn the client's configured shell command,
if any, as a detached child (its exit status is only logged). -/
def spawn_hook_command (s : CaptureState) (handle : Nat) : CaptureState :=
  if s.has_cmd.contains handle then { s with hooks := s.hooks ++ [handle] } else s

/-- Source `release_capture`: set the sub-state to `Idle`, clear the active
client and ask the backend to ungrab. -/
def release_capture (s : CaptureState) : CaptureState :=
  { s with state := .Idle, active := none, backend := s.backend ++ [.release] }

/-- Source `handle_capture_event`.  `keys_pressed` is the value the backend
reports for `keys_pressed(&server.release_bind)` at this event;
`send_ok pe h` is whether `conn.send(pe, h)` succeeds.  Note that the latch
`should_release` is consumed (`take()`) on every event, that a failing send
only calls `capture.release()` (with a debounced warn log, its timing not
modelled), and that the `Enter` payload is the literal `Position::Left`. -/
def handle_capture_event (send_ok : ProtoEvent → Nat → Bool) (s : CaptureState)
    (handle : Nat) (event : CaptureEvent) (keys_pressed : Bool) : CaptureState :=
  let latch := s.should_release
  let s := { s with should_release := false }
  if latch || keys_pressed then
    release_capture s
  else
    let s :=
      if event = .Begin then
        let s := { s with state := .WaitingForAck, active := some handle }
        spawn_hook_command s handle
      else s
    let proto_event :=
      match event with
      | .Begin => ProtoEvent.Enter .Left
      | .Input e =>
        match s.state with
        | .Sending => ProtoEvent.Input e
        -- connection not acknowledged, repeat the enter event
        | _ => ProtoEvent.Enter .Left
    let s := { s with send_log := s.send_log ++ [(proto_event, handle)] }
    if send_ok proto_event handle then s
    else { s with backend := s.backend ++ [.release] }

/-- One ready arm of `do_capture`'s select: a backend event (paired with the
backend's current `keys_pressed` report), an inbound `(handle, ProtoEvent)`
from the connection, or a control request. -/
inductive CaptureInput
  | backend_event (handle : Nat) (event : CaptureEvent) (keys_pressed : Bool)
  | conn_recv (handle : Nat) (event : ProtoEvent)
  | request (r : CaptureRequest)
deriving DecidableEq, Repr

/-- One iteration of `do_capture`'s select loop.  Inbound events are dropped
unless they come from the active client; from it, `Ack` sets the sub-state to
`Sending` and `Leave` releases capture. -/
def capture_step (send_ok : ProtoEvent → Nat → Bool) (s : CaptureState) :
    CaptureInput → CaptureState
  | .backend_event handle event keys_pressed =>
    handle_capture_event send_ok s handle event keys_pressed
  | .conn_recv handle event =>
    match s.active with
    | none => s
    | some active =>
      if handle ≠ active then s
      else
        match event with
        | .Ack _ => { s with state := .Sending }
        | .Leave _ => release_capture s
        | _ => s
  | .request .Release => release_capture s
  | .request (.Create h p) => { s with backend := s.backend ++ [.create h p] }
  | .request (.Destroy h) => { s with backend := s.backend ++ [.destroy h] }

/-- Iterated `capture_step` over a list of ready inputs. -/
def run_capture (send_ok : ProtoEvent → Nat → Bool) (s : CaptureState) :
    List CaptureInput → CaptureState
  | [] => s
  | i :: rest => run_capture send_ok (capture_step send_ok s i) rest

/-- Whether a select-loop input is an inbound `Ack`. -/
def CaptureInput.is_ack : CaptureInput → Bool
  | .conn_recv _ (.Ack _) => true
  | _ => false

end Capture

/-- Whether a wire event is an `Input`. -/
def ProtoEvent.is_input : ProtoEvent → Bool
  | .Input _ => true
  | _ => false

/-- Whether an inbound event reaches the Global Mode dispatch of
`handle_udp_rx` (i.e. is not intercepted as `Pong`, `Ping` or `Disconnect`). -/
def Event.mode_dispatched : Event → Bool
  | .Pong => false
  | .Ping => false
  | .Disconnect => false
  | _ => true

/-- An always-succeeding `consume` oracle. -/
def consume_ok_all : Event → Nat → Bool := fun _ _ => true

/-- A `consume` oracle failing exactly on pointer events (a backend that
reports an `EmulationError` mid-session). -/
def consume_fail_pointer : Event → Nat → Bool := fun e _ =>
  match e with
  | .Pointer _ => false
  | _ => true

/-- An always-succeeding `conn.send` oracle. -/
def send_ok_all : ProtoEvent → Nat → Bool := fun _ _ => true

/-- An always-failing `conn.send` oracle (link down). -/
def send_ok_none : ProtoEvent → Nat → Bool := fun _ _ => false

/-- A demo client configuration: reachable at address `7`, assigned the right
screen edge, no hook command. -/
def demo_cfg : ClientConfig :=
  { hostname := "hostA", addrs := [7], pos := .Right, cmd := none }

/-- A demo runtime state: fresh client, nothing pressed. -/
def demo_st : ClientState :=
  { active_addr := none, alive := false, pressed_keys := [] }

/-- A demo runtime state after the first datagram from address `7` arrived. -/
def demo_st_active : ClientState :=
  { active_addr := some 7, alive := true, pressed_keys := [] }

/-- A demo registry: one client, handle `1`, with config `demo_cfg`. -/
def demo_manager : ClientManager := ⟨[(1, demo_cfg, demo_st)]⟩

/-- The demo registry after the first datagram from address `7` was routed. -/
def demo_manager_active : ClientManager := ⟨[(1, demo_cfg, demo_st_active)]⟩

/-- The demo registry after key `17` was pressed for client `1`. -/
def demo_manager_pressed : ClientManager :=
  ⟨[(1, demo_cfg, { active_addr := some 7, alive := true, pressed_keys := [17] })]⟩

/-- A demo emulation-task state over `demo_manager` in the given mode. -/
def demo_emu (mode : Server.State) : EmuState :=
  { state := mode, client_manager := demo_manager, last_ignored := none,
    consumed := [], sent := [], capture_sent := [], ping_restarts := 0,
    warn_ignored := 0, terminated := false }

/-- A key press event. -/
def key_down (k : Nat) : Event := .Keyboard (.Key 0 k 1)

/-- A key release event. -/
def key_up (k : Nat) : Event := .Keyboard (.Key 0 k 0)

/-- A demo capture-task state: idle, no one active, latch clear, client `1`
configured at the right edge with a hook command. -/
def demo_cap : Capture.CaptureState :=
  { state := .Idle, active := none, should_release := false,
    pos_list := [(1, .Right)], has_cmd := [1], send_log := [], backend := [],
    hooks := [] }

/-- The demo capture state with the `should_release` latch set. -/
def demo_cap_latched : Capture.CaptureState := { demo_cap with should_release := true }

/-- The demo capture state after a completed handshake with client `1`. -/
def demo_cap_sending : Capture.CaptureState :=
  { demo_cap with state := .Sending, active := some 1 }

/-- The demo capture state mid-handshake with client `1`. -/
def demo_cap_wfa : Capture.CaptureState :=
  { demo_cap with state := .WaitingForAck, active := some 1 }

end LanMouse


namespace LanMouse

/-- The C1 failing run: in Receiving mode a press for key 17 is consumed
successfully, then the backend fails consuming a pointer event, so
`do_emulation_session` ends with an `EmulationError`. -/
def c1_failing_run : EmuState × Bool :=
  do_emulation consume_fail_pointer (demo_emu .Receiving)
    [.udp (key_down 17) 7, .udp (.Pointer 5) 7]

/-- The same run without the failing event: the session ends by cancellation. -/
def c1_clean_run : EmuState × Bool :=
  do_emulation consume_fail_pointer (demo_emu .Receiving) [.udp (key_down 17) 7]

/-- On every capture event, `handle_capture_event` first consumes the
`should_release` latch and, if the latch was set or the release bind is
pressed, releases capture without any further effect. -/
theorem handle_capture_event_latched (send_ok : ProtoEvent → Nat → Bool)
    (s : Capture.CaptureState) (handle : Nat) (event : Capture.CaptureEvent)
    (keys_pressed : Bool) (h : s.should_release = true ∨ keys_pressed = true) :
    Capture.handle_capture_event send_ok s handle event keys_pressed
      = Capture.release_capture { s with should_release := false } := by
  rcases h with h | h <;> simp [Capture.handle_capture_event, h]

/-- C9: for every capture-backend event that arrives while the
`should_release` latch is set or while the release bind is reported pressed,
the controller consumes the latch, calls `release_capture` (sub-state `Idle`,
active client cleared, backend ungrab), and sends no protocol event for the
triggering event. -/
theorem c9_release_latch_first (send_ok : ProtoEvent → Nat → Bool)
    (s : Capture.CaptureState) (handle : Nat) (event : Capture.CaptureEvent)
    (keys_pressed : Bool) (h : s.should_release = true ∨ keys_pressed = true) :
    Capture.handle_capture_event send_ok s handle event keys_pressed
        = Capture.release_capture { s with should_release := false }
      ∧ (Capture.handle_capture_event send_ok s handle event keys_pressed).should_release = false
      ∧ (Capture.handle_capture_event send_ok s handle event keys_pressed).state = .Idle
      ∧ (Capture.handle_capture_event send_ok s handle event keys_pressed).active = none
      ∧ (Capture.handle_capture_event send_ok s handle event keys_pressed).backend
          = s.backend ++ [.release]
      ∧ (Capture.handle_capture_event send_ok s handle event keys_pressed).send_log
          = s.send_log := by
  have he := handle_capture_event_latched send_ok s handle event keys_pressed h
  rw [he]
  exact ⟨rfl, rfl, rfl, rfl, rfl, rfl⟩

/-- Witness for C9 at a concrete latched state and event. -/
theorem c9_witness :
    demo_cap_latched.should_release = true
    ∧ Capture.handle_capture_event send_ok_all demo_cap_latched 1
        (.Input (key_down 30)) false
        = Capture.release_capture { demo_cap_latched with should_release := false } := by
  exact ⟨rfl, (c9_release_latch_first send_ok_all demo_cap_latched 1
    (.Input (key_down 30)) false (Or.inl rfl)).1⟩

/-- C10: a backend `Begin(h)` that arrives while the `should_release` latch is
set (or the release bind is pressed) only releases capture: `h` is not marked
active, the sub-state is not set to `WaitingForAck`, no `Enter` is sent and no
hook command is spawned. -/
theorem c10_begin_after_latch (send_ok : ProtoEvent → Nat → Bool)
    (s : Capture.CaptureState) (handle : Nat) (keys_pressed : Bool)
    (h : s.should_release = true ∨ keys_pressed = true) :
    (Capture.handle_capture_event send_ok s handle .Begin keys_pressed).active = none
      ∧ (Capture.handle_capture_event send_ok s handle .Begin keys_pressed).state = .Idle
      ∧ (Capture.handle_capture_event send_ok s handle .Begin keys_pressed).send_log = s.send_log
      ∧ (Capture.handle_capture_event send_ok s handle .Begin keys_pressed).hooks = s.hooks
      ∧ (Capture.handle_capture_event send_ok s handle .Begin keys_pressed).backend
          = s.backend ++ [.release] := by
  have he := handle_capture_event_latched send_ok s handle .Begin keys_pressed h
  rw [he]
  exact ⟨rfl, rfl, rfl, rfl, rfl⟩

/-- Witness for C10: `Begin` for client `1` (which has a hook command) under a
set latch spawns nothing, marks nothing active and sends nothing. -/
theorem c10_witness :
    demo_cap_latched.should_release = true
    ∧ (Capture.handle_capture_event send_ok_all demo_cap_latched 1 .Begin false).active = none
    ∧ (Capture.handle_capture_event send_ok_all demo_cap_latched 1 .Begin false).hooks = [] := by
  have h := c10_begin_after_latch send_ok_all demo_cap_latched 1 false (Or.inl rfl)
  exact ⟨rfl, h.1, h.2.2.2.1⟩

/-- C1 (code bug): after a session error (a failing `consume`), `do_emulation`
terminates the backend but returns the error before `release_all_keys`, so
key 17 stays in `pressed_keys` and no matching release is ever synthesized;
the claimed drain happens only on a clean (cancellation) exit, as the second
half shows. -/
theorem c1_error_exit_skips_release :
    c1_failing_run.2 = false
    ∧ c1_failing_run.1.terminated = true
    ∧ ((c1_failing_run.1.client_manager.find 1).map (·.2.pressed_keys)).getD [] = [17]
    ∧ c1_failing_run.1.consumed = [(key_down 17, 1), (.Pointer 5, 1)]
    ∧ c1_clean_run.2 = true
    ∧ ((c1_clean_run.1.client_manager.find 1).map (·.2.pressed_keys)).getD [] = []
    ∧ c1_clean_run.1.consumed
        = [(key_down 17, 1), (key_up 17, 1), (.Keyboard (.Modifiers 0 0 0 0), 1)] := by
  decide

/-- Counterexample to C2 as stated: a `Disconnect` received while the Global
Mode is `AwaitingLeave` is neither `Leave` nor `Enter`, yet it causes a call
to the emulation backend's `consume` (via `release_keys`). -/
theorem c2_counterexample :
    Event.Disconnect ≠ Event.Leave
    ∧ Event.Disconnect ≠ Event.Enter
    ∧ (handle_udp_rx consume_ok_all (demo_emu .AwaitingLeave) .Disconnect 7).1.consumed
        = [(.Keyboard (.Modifiers 0 0 0 0), 1)] := by
  decide

/-- Counterexample to C4 as stated: in `Sending` mode a `KeyDown` from a
registered client flips the mode to `Receiving` and pushes
`CaptureEvent::Release`, but the triggering event is NOT consumed by the
emulation backend (the consume log stays empty). -/
theorem c4_counterexample :
    (handle_udp_rx consume_ok_all (demo_emu .Sending) (key_down 30) 7).1.state = .Receiving
    ∧ (handle_udp_rx consume_ok_all (demo_emu .Sending) (key_down 30) 7).1.capture_sent
        = [.Release]
    ∧ (handle_udp_rx consume_ok_all (demo_emu .Sending) (key_down 30) 7).1.consumed = [] := by
  decide

/-- Counterexample to C5 as stated: on a send failure the capture controller
does not call `release_capture` — the sub-state stays `Sending` (not `Idle`)
and the active client stays set; only the backend ungrab happens. -/
theorem c5_counterexample :
    (Capture.handle_capture_event send_ok_none demo_cap_sending 1
        (.Input (key_down 30)) false).state = .Sending
    ∧ Capture.State.Sending ≠ Capture.State.Idle
    ∧ (Capture.handle_capture_event send_ok_none demo_cap_sending 1
        (.Input (key_down 30)) false).active = some 1
    ∧ (Capture.handle_capture_event send_ok_none demo_cap_sending 1
        (.Input (key_down 30)) false).backend = [.release] := by
  decide

/-- Counterexample to C6 as stated: client `1` is configured at `Right`, yet
the `Enter` sent on `Begin` carries `Left`, not the configured position. -/
theorem c6_counterexample :
    Capture.get_pos demo_cap 1 = some Position.Right
    ∧ (Capture.handle_capture_event send_ok_all demo_cap 1 .Begin false).send_log
        = [(.Enter .Left, 1)]
    ∧ ProtoPosition.Left ≠ to_proto_pos Position.Right := by
  decide

end LanMouse

namespace LanMouse

/-- C5 (amended): when the connection layer reports a send error for an
outbound `Input`, the capture controller logs (debounced, timing not
modelled) and asks the backend to ungrab, but it does not call
`release_capture`: the sub-state and the active client are left unchanged. -/
theorem c5_send_failure_backend_release_only (send_ok : ProtoEvent → Nat → Bool)
    (s : Capture.CaptureState) (handle : Nat) (e : Event)
    (hsr : s.should_release = false)
    (hfail : ∀ pe n, send_ok pe n = false) :
    (Capture.handle_capture_event send_ok s handle (.Input e) false).backend
        = s.backend ++ [.release]
    ∧ (Capture.handle_capture_event send_ok s handle (.Input e) false).state = s.state
    ∧ (Capture.handle_capture_event send_ok s handle (.Input e) false).active = s.active := by
  simp [Capture.handle_capture_event, hsr, hfail]

/-- Witness for C5 (amended) at a concrete sending state with a dead link. -/
theorem c5_witness :
    demo_cap_sending.should_release = false
    ∧ (Capture.handle_capture_event send_ok_none demo_cap_sending 1
        (.Input (key_down 30)) false).backend = demo_cap_sending.backend ++ [.release]
    ∧ (Capture.handle_capture_event send_ok_none demo_cap_sending 1
        (.Input (key_down 30)) false).state = demo_cap_sending.state
    ∧ (Capture.handle_capture_event send_ok_none demo_cap_sending 1
        (.Input (key_down 30)) false).active = demo_cap_sending.active := by
  have h := c5_send_failure_backend_release_only send_ok_none demo_cap_sending 1
    (key_down 30) rfl (fun _ _ => rfl)
  exact ⟨rfl, h.1, h.2.1, h.2.2⟩

/-- C6 (amended): on backend `Begin(h)` with the latch clear, the controller
marks `h` active and moves to `WaitingForAck`, but the `Enter` it sends
carries the literal `Position::Left` for every configured position. -/
theorem c6_begin_sends_enter_left (send_ok : ProtoEvent → Nat → Bool)
    (s : Capture.CaptureState) (handle : Nat) (p : Position)
    (hsr : s.should_release = false)
    (hpos : Capture.get_pos s handle = some p) :
    (Capture.handle_capture_event send_ok s handle .Begin false).active = some handle
    ∧ (Capture.handle_capture_event send_ok s handle .Begin false).state = .WaitingForAck
    ∧ (Capture.handle_capture_event send_ok s handle .Begin false).send_log
        = s.send_log ++ [(.Enter .Left, handle)] := by
  by_cases hsend : send_ok (ProtoEvent.Enter .Left) handle = true <;>
    simp [Capture.handle_capture_event, Capture.spawn_hook_command, hsr, hsend] <;>
    split <;> simp

/-- Witness for C6 (amended): client `1` configured at `Right` still gets
`Enter(Left)`. -/
theorem c6_witness :
    demo_cap.should_release = false
    ∧ Capture.get_pos demo_cap 1 = some Position.Right
    ∧ (Capture.handle_capture_event send_ok_all demo_cap 1 .Begin false).active = some 1
    ∧ (Capture.handle_capture_event send_ok_all demo_cap 1 .Begin false).state = .WaitingForAck
    ∧ (Capture.handle_capture_event send_ok_all demo_cap 1 .Begin false).send_log
        = demo_cap.send_log ++ [(.Enter .Left, 1)] := by
  have h := c6_begin_sends_enter_left send_ok_all demo_cap 1 Position.Right rfl rfl
  exact ⟨rfl, rfl, h.1, h.2.1, h.2.2⟩

/-- C4 (amended): with Global Mode `Sending`, an inbound `Leave` from a
registered client is ignored (mode stays `Sending`), and any other event that
reaches the mode dispatch pushes `CaptureEvent::Release` and flips the mode to
`Receiving`; in both cases the triggering event itself is not forwarded to the
emulation backend (only subsequent events, processed in `Receiving`, are). -/
theorem c4_sending_collision (consume_ok : Event → Nat → Bool) :
    (∀ (s : EmuState) (addr handle : Nat) (cm : ClientManager) (li : Option Nat) (wn : Bool),
      s.state = .Sending
      → activate_client_if_exists s.client_manager addr s.last_ignored = (some handle, cm, li, wn)
      → (handle_udp_rx consume_ok s .Leave addr).1.state = .Sending
        ∧ (handle_udp_rx consume_ok s .Leave addr).1.capture_sent = s.capture_sent
        ∧ (handle_udp_rx consume_ok s .Leave addr).1.consumed = s.consumed)
    ∧ (∀ (s : EmuState) (event : Event) (addr handle : Nat)
        (cm : ClientManager) (li : Option Nat) (wn : Bool),
      s.state = .Sending
      → activate_client_if_exists s.client_manager addr s.last_ignored = (some handle, cm, li, wn)
      → event.mode_dispatched = true
      → event ≠ .Leave
      → (handle_udp_rx consume_ok s event addr).1.state = .Receiving
        ∧ (handle_udp_rx consume_ok s event addr).1.capture_sent = s.capture_sent ++ [.Release]
        ∧ (handle_udp_rx consume_ok s event addr).1.consumed = s.consumed) := by
  constructor
  · intro s addr handle cm li wn hmode hact
    simp [handle_udp_rx, hact, hmode]
  · intro s event addr handle cm li wn hmode hact hdisp hne
    cases event <;> simp [Event.mode_dispatched] at hdisp <;>
      simp [handle_udp_rx, hact, hmode] <;> simp at hne

/-- Witness for C4 (amended): a `KeyDown` and a `Leave` in `Sending` mode. -/
theorem c4_witness :
    ((handle_udp_rx consume_ok_all (demo_emu .Sending) (key_down 30) 7).1.state = .Receiving
      ∧ (handle_udp_rx consume_ok_all (demo_emu .Sending) (key_down 30) 7).1.capture_sent
          = (demo_emu .Sending).capture_sent ++ [.Release]
      ∧ (handle_udp_rx consume_ok_all (demo_emu .Sending) (key_down 30) 7).1.consumed
          = (demo_emu .Sending).consumed)
    ∧ ((handle_udp_rx consume_ok_all (demo_emu .Sending) .Leave 7).1.state = .Sending
      ∧ (handle_udp_rx consume_ok_all (demo_emu .Sending) .Leave 7).1.capture_sent
          = (demo_emu .Sending).capture_sent
      ∧ (handle_udp_rx consume_ok_all (demo_emu .Sending) .Leave 7).1.consumed
          = (demo_emu .Sending).consumed) := by
  refine ⟨(c4_sending_collision consume_ok_all).2 (demo_emu .Sending) (key_down 30) 7 1
      demo_manager_active none false rfl (by decide) (by decide) (by decide),
    (c4_sending_collision consume_ok_all).1 (demo_emu .Sending) 7 1
      demo_manager_active none false rfl (by decide)⟩

/-- C2 (amended): while Global Mode is `AwaitingLeave`, no inbound event other
than `Leave`, `Enter` or `Disconnect` causes a call to the emulation backend
or changes the mode (`Disconnect` triggers `release_keys`, which calls
`consume`, without changing the mode); a `Leave` sets the mode to `Sending`
without any `consume`; hence for the inbound sequence Input, Input, Leave the
backend `consume` is called zero times and the mode ends as `Sending`. -/
theorem c2_awaiting_leave_drain (consume_ok : Event → Nat → Bool) :
    (∀ (s : EmuState) (event : Event) (addr handle : Nat)
        (cm : ClientManager) (li : Option Nat) (wn : Bool),
      s.state = .AwaitingLeave
      → activate_client_if_exists s.client_manager addr s.last_ignored = (some handle, cm, li, wn)
      → event ≠ .Leave → event ≠ .Enter → event ≠ .Disconnect
      → (handle_udp_rx consume_ok s event addr).1.consumed = s.consumed
        ∧ (handle_udp_rx consume_ok s event addr).1.state = .AwaitingLeave)
    ∧ (∀ (s : EmuState) (addr handle : Nat)
        (cm : ClientManager) (li : Option Nat) (wn : Bool),
      s.state = .AwaitingLeave
      → activate_client_if_exists s.client_manager addr s.last_ignored = (some handle, cm, li, wn)
      → (handle_udp_rx consume_ok s .Leave addr).1.state = .Sending
        ∧ (handle_udp_rx consume_ok s .Leave addr).1.consumed = s.consumed)
    ∧ ((do_emulation_session consume_ok_all (demo_emu .AwaitingLeave)
          [.udp (key_down 17) 7, .udp (.Pointer 5) 7, .udp .Leave 7]).1.consumed = []
      ∧ (do_emulation_session consume_ok_all (demo_emu .AwaitingLeave)
          [.udp (key_down 17) 7, .udp (.Pointer 5) 7, .udp .Leave 7]).1.state = .Sending) := by
  refine ⟨?_, ?_, by decide⟩
  · intro s event addr handle cm li wn hmode hact h1 h2 h3
    cases event <;> simp at h1 h2 h3 <;> simp [handle_udp_rx, hact, hmode]
  · intro s addr handle cm li wn hmode hact
    simp [handle_udp_rx, hact, hmode]

/-- Witness for C2 (amended): a pointer event and a `Leave` in
`AwaitingLeave` mode. -/
theorem c2_witness :
    ((handle_udp_rx consume_ok_all (demo_emu .AwaitingLeave) (.Pointer 5) 7).1.consumed
        = (demo_emu .AwaitingLeave).consumed
      ∧ (handle_udp_rx consume_ok_all (demo_emu .AwaitingLeave) (.Pointer 5) 7).1.state
          = .AwaitingLeave)
    ∧ ((handle_udp_rx consume_ok_all (demo_emu .AwaitingLeave) .Leave 7).1.state = .Sending
      ∧ (handle_udp_rx consume_ok_all (demo_emu .AwaitingLeave) .Leave 7).1.consumed
          = (demo_emu .AwaitingLeave).consumed) := by
  refine ⟨(c2_awaiting_leave_drain consume_ok_all).1 (demo_emu .AwaitingLeave) (.Pointer 5) 7 1
      demo_manager_active none false rfl (by decide) (by decide) (by decide) (by decide),
    (c2_awaiting_leave_drain consume_ok_all).2.1 (demo_emu .AwaitingLeave) 7 1
      demo_manager_active none false rfl (by decide)⟩

end LanMouse

namespace LanMouse

/-- Field effects of an unlatched `Begin`: sub-state `WaitingForAck` and an
`Enter(Left)` appended to the send log, whatever the hook and send outcomes. -/
theorem handle_capture_event_begin_fields (send_ok : ProtoEvent → Nat → Bool)
    (s : Capture.CaptureState) (handle : Nat)
    (ha : s.should_release = false) :
    (Capture.handle_capture_event send_ok s handle .Begin false).state = .WaitingForAck
    ∧ (Capture.handle_capture_event send_ok s handle .Begin false).send_log
        = s.send_log ++ [(.Enter .Left, handle)] := by
  by_cases hsend : send_ok (ProtoEvent.Enter .Left) handle = true <;>
    simp [Capture.handle_capture_event, Capture.spawn_hook_command, ha, hsend] <;>
    split <;> simp

/-- Field effects of an unlatched `Input` while the sub-state is not
`Sending`: the sub-state is unchanged and the event goes out re-encoded as
`Enter(Left)`. -/
theorem handle_capture_event_input_fields (send_ok : ProtoEvent → Nat → Bool)
    (s : Capture.CaptureState) (handle : Nat) (e : Event)
    (ha : s.should_release = false) (h1 : s.state ≠ .Sending) :
    (Capture.handle_capture_event send_ok s handle (.Input e) false).state = s.state
    ∧ (Capture.handle_capture_event send_ok s handle (.Input e) false).send_log
        = s.send_log ++ [(.Enter .Left, handle)] := by
  cases hst : s.state with
  | Sending => exact absurd hst h1
  | Idle =>
    by_cases hsend : send_ok (ProtoEvent.Enter .Left) handle = true <;>
      simp [Capture.handle_capture_event, ha, hst, hsend]
  | WaitingForAck =>
    by_cases hsend : send_ok (ProtoEvent.Enter .Left) handle = true <;>
      simp [Capture.handle_capture_event, ha, hst, hsend]

/-- Field effects of an unlatched `Input` while the sub-state is `Sending`:
the event goes out as a wire `Input`. -/
theorem handle_capture_event_input_sending (send_ok : ProtoEvent → Nat → Bool)
    (s : Capture.CaptureState) (handle : Nat) (e : Event)
    (ha : s.should_release = false) (h1 : s.state = .Sending) :
    (Capture.handle_capture_event send_ok s handle (.Input e) false).send_log
        = s.send_log ++ [(.Input e, handle)] := by
  by_cases hsend : send_ok (ProtoEvent.Input e) handle = true <;>
    simp [Capture.handle_capture_event, ha, h1, hsend]

/-- No-`Ack` step preservation for backend events: whatever
`handle_capture_event` does, it cannot set the sub-state to `Sending`, and
everything it appends to the send log is re-encoded, never a wire `Input`,
as long as the sub-state was not already `Sending`. -/
theorem handle_capture_event_no_input (send_ok : ProtoEvent → Nat → Bool)
    (s : Capture.CaptureState) (handle : Nat) (event : Capture.CaptureEvent)
    (keys_pressed : Bool) (h1 : s.state ≠ .Sending)
    (h2 : ∀ pe ∈ s.send_log, pe.1.is_input = false) :
    (Capture.handle_capture_event send_ok s handle event keys_pressed).state ≠ .Sending
    ∧ ∀ pe ∈ (Capture.handle_capture_event send_ok s handle event keys_pressed).send_log,
        pe.1.is_input = false := by
  by_cases hrel : s.should_release = true ∨ keys_pressed = true
  · rw [handle_capture_event_latched send_ok s handle event keys_pressed hrel]
    exact ⟨by simp [Capture.release_capture], h2⟩
  · push_neg at hrel
    have ha' : s.should_release = false := by simpa using hrel.1
    have hb' : keys_pressed = false := by simpa using hrel.2
    subst hb'
    cases event with
    | Begin =>
      obtain ⟨hs, hl⟩ := handle_capture_event_begin_fields send_ok s handle ha'
      refine ⟨by rw [hs]; simp, ?_⟩
      intro pe hpe
      rw [hl] at hpe
      rcases List.mem_append.mp hpe with h | h
      · exact h2 pe h
      · rw [List.mem_singleton.mp h]
        rfl
    | Input e =>
      obtain ⟨hs, hl⟩ := handle_capture_event_input_fields send_ok s handle e ha' h1
      refine ⟨by rw [hs]; exact h1, ?_⟩
      intro pe hpe
      rw [hl] at hpe
      rcases List.mem_append.mp hpe with h | h
      · exact h2 pe h
      · rw [List.mem_singleton.mp h]
        rfl

/-- Single-step preservation: a select-loop input that is not an inbound
`Ack` can neither set the sub-state to `Sending` nor append a wire `Input`
to the send log. -/
theorem capture_step_no_input (send_ok : ProtoEvent → Nat → Bool)
    (s : Capture.CaptureState) (i : Capture.CaptureInput)
    (hi : i.is_ack = false) (h1 : s.state ≠ .Sending)
    (h2 : ∀ pe ∈ s.send_log, pe.1.is_input = false) :
    (Capture.capture_step send_ok s i).state ≠ .Sending
    ∧ ∀ pe ∈ (Capture.capture_step send_ok s i).send_log, pe.1.is_input = false := by
  cases i with
  | backend_event handle event keys_pressed =>
    exact handle_capture_event_no_input send_ok s handle event keys_pressed h1 h2
  | conn_recv handle event =>
    cases hac : s.active with
    | none =>
      have hstep : Capture.capture_step send_ok s (.conn_recv handle event) = s := by
        simp [Capture.capture_step, hac]
      rw [hstep]
      exact ⟨h1, h2⟩
    | some a =>
      by_cases hha : handle = a
      · subst hha
        cases event with
        | Ack n => simp [Capture.CaptureInput.is_ack] at hi
        | Leave n =>
          have hstep : Capture.capture_step send_ok s (.conn_recv handle (.Leave n))
              = Capture.release_capture s := by
            simp [Capture.capture_step, hac]
          rw [hstep]
          exact ⟨by simp [Capture.release_capture], h2⟩
        | Enter p =>
          have hstep : Capture.capture_step send_ok s (.conn_recv handle (.Enter p)) = s := by
            simp [Capture.capture_step, hac]
          rw [hstep]
          exact ⟨h1, h2⟩
        | Input e =>
          have hstep : Capture.capture_step send_ok s (.conn_recv handle (.Input e)) = s := by
            simp [Capture.capture_step, hac]
          rw [hstep]
          exact ⟨h1, h2⟩
        | Ping =>
          have hstep : Capture.capture_step send_ok s (.conn_recv handle .Ping) = s := by
            simp [Capture.capture_step, hac]
          rw [hstep]
          exact ⟨h1, h2⟩
        | Pong =>
          have hstep : Capture.capture_step send_ok s (.conn_recv handle .Pong) = s := by
            simp [Capture.capture_step, hac]
          rw [hstep]
          exact ⟨h1, h2⟩
        | Disconnect =>
          have hstep : Capture.capture_step send_ok s (.conn_recv handle .Disconnect) = s := by
            simp [Capture.capture_step, hac]
          rw [hstep]
          exact ⟨h1, h2⟩
      · have hstep : Capture.capture_step send_ok s (.conn_recv handle event) = s := by
          simp [Capture.capture_step, hac, hha]
        rw [hstep]
        exact ⟨h1, h2⟩
  | request r =>
    cases r with
    | Release =>
      have hstep : Capture.capture_step send_ok s (.request .Release)
          = Capture.release_capture s := rfl
      rw [hstep]
      exact ⟨by simp [Capture.release_capture], h2⟩
    | Create h p =>
      have hstep : Capture.capture_step send_ok s (.request (.Create h p))
          = { s with backend := s.backend ++ [.create h p] } := rfl
      rw [hstep]
      exact ⟨h1, h2⟩
    | Destroy h =>
      have hstep : Capture.capture_step send_ok s (.request (.Destroy h))
          = { s with backend := s.backend ++ [.destroy h] } := rfl
      rw [hstep]
      exact ⟨h1, h2⟩

/-- Trace preservation: along any run without an inbound `Ack`, starting off
`Sending`, the sub-state never becomes `Sending` and no wire `Input` is ever
appended to the send log. -/
theorem run_capture_no_input (send_ok : ProtoEvent → Nat → Bool)
    (ins : List Capture.CaptureInput) :
    ∀ (s : Capture.CaptureState),
      (∀ i ∈ ins, i.is_ack = false) → s.state ≠ .Sending
      → (∀ pe ∈ s.send_log, pe.1.is_input = false)
      → (Capture.run_capture send_ok s ins).state ≠ .Sending
        ∧ ∀ pe ∈ (Capture.run_capture send_ok s ins).send_log, pe.1.is_input = false := by
  induction ins with
  | nil => exact fun s _ h1 h2 => ⟨h1, h2⟩
  | cons i rest ih =>
    intro s hack h1 h2
    obtain ⟨h1', h2'⟩ := capture_step_no_input send_ok s i (hack i (by simp)) h1 h2
    exact ih (Capture.capture_step send_ok s i)
      (fun j hj => hack j (by simp [hj])) h1' h2'

/-- C3: during a capture burst the controller never emits a wire `Input` to
the peer before an inbound `Ack` has been received: (1) along any run with no
inbound `Ack`, starting with the sub-state off `Sending` and, counting sends
from the burst start, nothing is ever sent as `Input` and the sub-state never
reaches `Sending`; (2) a backend `Input` during `WaitingForAck` is
re-encoded and sent as `Enter`; (3) an `Ack` from the active handle sets the
sub-state to `Sending`; (4) after which backend `Input` events are sent as
wire `Input`. -/
theorem c3_ack_before_input (send_ok : ProtoEvent → Nat → Bool) :
    (∀ (s : Capture.CaptureState) (ins : List Capture.CaptureInput),
      (∀ i ∈ ins, i.is_ack = false) → s.state ≠ .Sending → s.send_log = []
      → (Capture.run_capture send_ok s ins).state ≠ .Sending
        ∧ ∀ pe ∈ (Capture.run_capture send_ok s ins).send_log, pe.1.is_input = false)
    ∧ (∀ (s : Capture.CaptureState) (handle : Nat) (e : Event),
      s.should_release = false → s.state = .WaitingForAck
      → (Capture.handle_capture_event send_ok s handle (.Input e) false).send_log
          = s.send_log ++ [(.Enter .Left, handle)])
    ∧ (∀ (s : Capture.CaptureState) (handle n : Nat),
      s.active = some handle
      → (Capture.capture_step send_ok s (.conn_recv handle (.Ack n))).state = .Sending)
    ∧ (∀ (s : Capture.CaptureState) (handle : Nat) (e : Event),
      s.should_release = false → s.state = .Sending
      → (Capture.handle_capture_event send_ok s handle (.Input e) false).send_log
          = s.send_log ++ [(.Input e, handle)]) := by
  refine ⟨?_, ?_, ?_, ?_⟩
  · intro s ins hack h1 hempty
    exact run_capture_no_input send_ok ins s hack h1 (by simp [hempty])
  · intro s handle e ha hst
    exact (handle_capture_event_input_fields send_ok s handle e ha (by simp [hst])).2
  · intro s handle n hact
    simp [Capture.capture_step, hact]
  · intro s handle e ha hst
    exact handle_capture_event_input_sending send_ok s handle e ha hst

/-- Witness for C3: concrete instances of the `WaitingForAck` re-encoding,
the `Ack` transition, and post-`Ack` `Input` forwarding. -/
theorem c3_witness :
    (Capture.handle_capture_event send_ok_all demo_cap_wfa 1
        (.Input (key_down 30)) false).send_log
        = demo_cap_wfa.send_log ++ [(.Enter .Left, 1)]
    ∧ (Capture.capture_step send_ok_all demo_cap_wfa (.conn_recv 1 (.Ack 0))).state = .Sending
    ∧ (Capture.handle_capture_event send_ok_all demo_cap_sending 1
        (.Input (key_down 30)) false).send_log
        = demo_cap_sending.send_log ++ [(.Input (key_down 30), 1)] := by
  refine ⟨(c3_ack_before_input send_ok_all).2.1 demo_cap_wfa 1 (key_down 30) rfl rfl,
    (c3_ack_before_input send_ok_all).2.2.1 demo_cap_wfa 1 0 rfl,
    (c3_ack_before_input send_ok_all).2.2.2 demo_cap_sending 1 (key_down 30) rfl rfl⟩

end LanMouse

namespace LanMouse

/-- The release loop only appends to the consume log: every other field of
the state is unchanged. -/
theorem release_drained_fields (consume_ok : Event → Nat → Bool)
    (client : Nat) (keys : List Nat) : ∀ (s : EmuState),
    (release_drained consume_ok s client keys).1.last_ignored = s.last_ignored
    ∧ (release_drained consume_ok s client keys).1.state = s.state
    ∧ (release_drained consume_ok s client keys).1.warn_ignored = s.warn_ignored := by
  induction keys with
  | nil => intro s; exact ⟨rfl, rfl, rfl⟩
  | cons k rest ih =>
    intro s
    by_cases hc : consume_ok (.Keyboard (.Key 0 k 0)) client = true <;>
      simp [release_drained, consume, hc, ih]

/-- `release_keys` only touches the registry and the consume log. -/
theorem release_keys_fields (consume_ok : Event → Nat → Bool)
    (s : EmuState) (client : Nat) :
    (release_keys consume_ok s client).1.last_ignored = s.last_ignored
    ∧ (release_keys consume_ok s client).1.state = s.state
    ∧ (release_keys consume_ok s client).1.warn_ignored = s.warn_ignored := by
  simpa [release_keys] using
    release_drained_fields consume_ok client _ _

/-- A successful lookup in `activate_client_if_exists` always clears the
`last_ignored` slot. -/
theorem activate_some_slot_none (cmgr : ClientManager) (addr : Nat)
    (li0 : Option Nat) (handle : Nat) (cm : ClientManager) (li : Option Nat)
    (wn : Bool)
    (hact : activate_client_if_exists cmgr addr li0 = (some handle, cm, li, wn)) :
    li = none := by
  rcases hg : cmgr.get_client addr with _ | h0
  · simp only [activate_client_if_exists, hg] at hact
    split at hact <;> simp at hact
  · simp only [activate_client_if_exists, hg] at hact
    rcases hf : cmgr.find h0 with _ | p
    · rw [hf] at hact
      simp at hact
    · rw [hf] at hact
      simp only [Prod.mk.injEq] at hact
      exact hact.2.2.1.symm

/-- After a datagram from a registered address, the `last_ignored` slot holds
what the lookup returned (which is `none`), whatever the event. -/
theorem handle_udp_rx_slot_known (consume_ok : Event → Nat → Bool)
    (s : EmuState) (event : Event) (addr handle : Nat) (cm : ClientManager)
    (li : Option Nat) (wn : Bool)
    (hact : activate_client_if_exists s.client_manager addr s.last_ignored
      = (some handle, cm, li, wn)) :
    (handle_udp_rx consume_ok s event addr).1.last_ignored = li := by
  cases event with
  | Pong => simp [handle_udp_rx, hact]
  | Ping => simp [handle_udp_rx, hact]
  | Disconnect =>
    simp only [handle_udp_rx, hact]
    exact (release_keys_fields consume_ok _ handle).1
  | Pointer e =>
    cases hst : s.state <;>
      simp [handle_udp_rx, hact, hst, consume]
  | Enter =>
    cases hst : s.state <;>
      simp [handle_udp_rx, hact, hst, consume]
  | Leave =>
    cases hst : s.state <;>
      simp [handle_udp_rx, hact, hst, consume]
  | Keyboard e =>
    cases hst : s.state with
    | Sending => simp [handle_udp_rx, hact, hst]
    | AwaitingLeave => simp [handle_udp_rx, hact, hst]
    | Receiving =>
      cases e with
      | Key tm key kstate =>
        simp [handle_udp_rx, hact, hst]
        split <;> simp [consume]
      | Modifiers a b c d =>
        simp [handle_udp_rx, hact, hst, consume]

/-- C8: an inbound datagram from an address with no registered client is
dropped with no change to any client state, mode or log, the warning is
counted once per contiguous run of the same unknown address (and the slot set
to that address); any event from a known address resets the slot; the closed
scenario shows one warning for 9, none for the repeat, one for 13, a reset by
known 7, and one more for 9. -/
theorem c8_unknown_address_filter (consume_ok : Event → Nat → Bool) :
    (∀ (s : EmuState) (event : Event) (addr : Nat),
      s.client_manager.get_client addr = none
      → (handle_udp_rx consume_ok s event addr).1.client_manager = s.client_manager
        ∧ (handle_udp_rx consume_ok s event addr).1.state = s.state
        ∧ (handle_udp_rx consume_ok s event addr).1.consumed = s.consumed
        ∧ (handle_udp_rx consume_ok s event addr).1.sent = s.sent
        ∧ (handle_udp_rx consume_ok s event addr).1.capture_sent = s.capture_sent
        ∧ (handle_udp_rx consume_ok s event addr).1.ping_restarts = s.ping_restarts
        ∧ (handle_udp_rx consume_ok s event addr).1.last_ignored = some addr
        ∧ (handle_udp_rx consume_ok s event addr).1.warn_ignored
            = s.warn_ignored + (if s.last_ignored = some addr then 0 else 1))
    ∧ (∀ (s : EmuState) (event : Event) (addr handle : Nat)
        (cm : ClientManager) (li : Option Nat) (wn : Bool),
      activate_client_if_exists s.client_manager addr s.last_ignored = (some handle, cm, li, wn)
      → (handle_udp_rx consume_ok s event addr).1.last_ignored = none)
    ∧ ((do_emulation_session consume_ok_all (demo_emu .Receiving)
          [.udp .Ping 9, .udp .Ping 9, .udp .Ping 13, .udp .Ping 7, .udp .Ping 9]).1.warn_ignored
          = 3
      ∧ (do_emulation_session consume_ok_all (demo_emu .Receiving)
          [.udp .Ping 9, .udp .Ping 9, .udp .Ping 13, .udp .Ping 7, .udp .Ping 9]).1.last_ignored
          = some 9) := by
  refine ⟨?_, ?_, by decide⟩
  · intro s event addr hget
    have hact : activate_client_if_exists s.client_manager addr s.last_ignored
        = (none, s.client_manager,
           (if s.last_ignored = some addr then s.last_ignored else some addr),
           (if s.last_ignored = some addr then false else true)) := by
      cases hli : s.last_ignored with
      | none => simp [activate_client_if_exists, hget]
      | some b =>
        by_cases hb : b = addr
        · subst hb
          simp [activate_client_if_exists, hget]
        · simp [activate_client_if_exists, hget, hb]
    simp only [handle_udp_rx, hact]
    by_cases hsl : s.last_ignored = some addr <;> simp [hsl]
  · intro s event addr handle cm li wn hact
    have hli : li = none :=
      activate_some_slot_none s.client_manager addr s.last_ignored handle cm li wn hact
    rw [handle_udp_rx_slot_known consume_ok s event addr handle cm li wn hact, hli]

/-- Witness for C8: a datagram from unknown address 9, and one from the
registered address 7. -/
theorem c8_witness :
    ((handle_udp_rx consume_ok_all (demo_emu .Receiving) .Ping 9).1.client_manager
        = (demo_emu .Receiving).client_manager
      ∧ (handle_udp_rx consume_ok_all (demo_emu .Receiving) .Ping 9).1.last_ignored = some 9
      ∧ (handle_udp_rx consume_ok_all (demo_emu .Receiving) .Ping 9).1.warn_ignored
          = (demo_emu .Receiving).warn_ignored
            + (if (demo_emu .Receiving).last_ignored = some 9 then 0 else 1))
    ∧ (handle_udp_rx consume_ok_all (demo_emu .Receiving) .Ping 7).1.last_ignored = none := by
  have h1 := ((c8_unknown_address_filter consume_ok_all).1 (demo_emu .Receiving) .Ping 9
    (by decide))
  exact ⟨⟨h1.1, h1.2.2.2.2.2.2.1, h1.2.2.2.2.2.2.2⟩,
    (c8_unknown_address_filter consume_ok_all).2.1 (demo_emu .Receiving) .Ping 7 1
      demo_manager_active none false (by decide)⟩

end LanMouse

namespace LanMouse

/-- Looking up the updated handle after a point update of the registry. -/
theorem ClientManager.find_update (m : ClientManager) (handle : Nat)
    (f : ClientState → ClientState) :
    ClientManager.find (m.update handle f) handle
      = (ClientManager.find m handle).map fun p => (p.1, f p.2) := by
  obtain ⟨l⟩ := m
  induction l with
  | nil => rfl
  | cons c cs ih =>
    by_cases hc : c.1 = handle
    · simp [ClientManager.find, ClientManager.update, List.find?_cons, hc]
    · simp only [ClientManager.find, ClientManager.update, List.map_cons] at ih ⊢
      rw [List.find?_cons_of_neg, List.find?_cons_of_neg]
      · exact ih
      · simp [hc]
      · simp [hc]

/-- C7: in Receiving mode a key event updates `pressed_keys` with
double-press / double-release suppression: the event is forwarded to the
backend's `consume` exactly when it is not a duplicate, the ping timer is
restarted exactly when some key remains pressed after the update, a
duplicate is exactly a press of a pressed key or a release of an unpressed
key, and the updated set is the old one with the key inserted (press) or
removed (release). -/
theorem c7_double_key_filter (consume_ok : Event → Nat → Bool)
    (s : EmuState) (addr handle tm key kstate : Nat)
    (cm1 cm2 : ClientManager) (li1 : Option Nat) (w1 : Bool) (ig rt : Bool)
    (cfg : ClientConfig) (st : ClientState)
    (hmode : s.state = .Receiving)
    (hact : activate_client_if_exists s.client_manager addr s.last_ignored
        = (some handle, cm1, li1, w1))
    (hupd : update_client_keys cm1 handle key kstate = (ig, rt, cm2))
    (hfind : ClientManager.find cm1 handle = some (cfg, st)) :
    ((handle_udp_rx consume_ok s (.Keyboard (.Key tm key kstate)) addr).1.consumed
        = if ig then s.consumed
          else s.consumed ++ [(.Keyboard (.Key tm key kstate), handle)])
    ∧ ((handle_udp_rx consume_ok s (.Keyboard (.Key tm key kstate)) addr).1.ping_restarts
        = s.ping_restarts + (if rt then 1 else 0))
    ∧ (ig = true
        ↔ ((kstate = 0 ∧ key ∉ st.pressed_keys) ∨ (kstate ≠ 0 ∧ key ∈ st.pressed_keys)))
    ∧ (∀ p, ClientManager.find cm2 handle = some p →
        (∀ j : Nat, j ∈ p.2.pressed_keys
          ↔ ((j ∈ st.pressed_keys ∧ (kstate ≠ 0 ∨ j ≠ key)) ∨ (kstate ≠ 0 ∧ j = key)))
        ∧ (rt = true ↔ p.2.pressed_keys ≠ []))
    ∧ (∃ p, ClientManager.find cm2 handle = some p) := by
  have hupd' := hupd
  unfold update_client_keys at hupd'
  rw [hfind] at hupd'
  simp only [Prod.mk.injEq] at hupd'
  obtain ⟨hig, hrt, hcm2⟩ := hupd'
  have hfind2 : ClientManager.find cm2 handle
      = some (cfg, { st with pressed_keys :=
          if kstate = 0 then st.pressed_keys.filter (fun k => k != key)
          else if st.pressed_keys.contains key then st.pressed_keys
          else st.pressed_keys ++ [key] }) := by
    rw [← hcm2, ClientManager.find_update, hfind]
    rfl
  refine ⟨?_, ?_, ?_, ?_, ⟨_, hfind2⟩⟩
  · cases hcase : ig <;>
      simp [handle_udp_rx, hact, hupd, hmode, hcase, consume]
  · cases hcase : rt <;>
      cases hcase2 : ig <;>
        simp [handle_udp_rx, hact, hupd, hmode, hcase, hcase2, consume]
  · rw [← hig]
    by_cases h0 : kstate = 0
    · simp [h0, List.elem_iff]
    · simp [h0, List.elem_iff]
  · intro p hp
    rw [hfind2] at hp
    have hp' : p = (cfg, { st with pressed_keys :=
        if kstate = 0 then st.pressed_keys.filter (fun k => k != key)
        else if st.pressed_keys.contains key then st.pressed_keys
        else st.pressed_keys ++ [key] }) := by
      exact (Option.some.injEq _ _).mp hp.symm
    subst hp'
    constructor
    · intro j
      by_cases h0 : kstate = 0
      · simp [h0, List.mem_filter]
      · by_cases hcont : st.pressed_keys.contains key = true
        · have hkey : key ∈ st.pressed_keys := by
            simpa using List.elem_iff.mp hcont
          simp only [h0, if_false, hcont, if_true]
          constructor
          · intro hj
            exact Or.inl ⟨hj, Or.inl h0⟩
          · rintro (⟨hj, _⟩ | ⟨_, hj⟩)
            · exact hj
            · exact hj ▸ hkey
        · have hkey : key ∉ st.pressed_keys := by
            simpa [List.elem_iff] using hcont
          simp [h0, hkey, List.mem_append]
    · rw [← hrt]
      by_cases h0 : kstate = 0 <;> simp [h0]

/-- Witness for C7: a fresh press of key 17 from the registered client is
forwarded and restarts the ping timer. -/
theorem c7_witness :
    (handle_udp_rx consume_ok_all (demo_emu .Receiving) (key_down 17) 7).1.consumed
        = (demo_emu .Receiving).consumed ++ [(key_down 17, 1)]
    ∧ (handle_udp_rx consume_ok_all (demo_emu .Receiving) (key_down 17) 7).1.ping_restarts
        = (demo_emu .Receiving).ping_restarts + 1 := by
  have h := c7_double_key_filter consume_ok_all (demo_emu .Receiving) 7 1 0 17 1
    demo_manager_active demo_manager_pressed none false false true demo_cfg demo_st_active
    rfl (by decide) (by decide) (by decide)
  exact ⟨by simpa [key_down] using h.1, by simpa using h.2.1⟩

end LanMouse
